import Mathlib

/-!
Verification of the EasyNote v2 AI service layer
(`backend/services/ai_service.py`, configuration from `backend/config.py`).

The Python code is shallowly embedded: pure helpers become Lean functions on
`String` / `List Char`, Python exceptions become `Except PyErr` results, and
the network transport is an explicit oracle parameter.
-/

namespace EasyNote

/-! ### Python string primitives

`str.strip()` and the regex class `\s` both match whitespace.  For the ASCII
range (all characters that matter here) Python's notion of whitespace is
space, tab, newline, carriage return, vertical tab and form feed. -/

def isPySpace (c : Char) : Bool :=
  c = ' ' || c = '\t' || c = '\n' || c = '\r' || c = '\x0b' || c = '\x0c'

/-- Left strip: drop leading whitespace. -/
def stripL (l : List Char) : List Char := l.dropWhile isPySpace

/-- Right strip: drop trailing whitespace. -/
def stripR (l : List Char) : List Char := (l.reverse.dropWhile isPySpace).reverse

/-- `str.strip()` on the character list. -/
def pyStripList (l : List Char) : List Char := stripR (stripL l)

/-- `str.strip()`. -/
def pyStrip (s : String) : String := String.mk (pyStripList s.data)

/-- Does `pat` occur as a contiguous substring of `l`?  (Python `pat in l`.) -/
def containsSeq (pat : List Char) : List Char → Bool
  | [] => pat.isPrefixOf []
  | c :: rest => pat.isPrefixOf (c :: rest) || containsSeq pat rest

/-- Split `l` at the first occurrence of `pat`: returns the part strictly
before the occurrence and the part strictly after it. -/
def splitFirst (pat : List Char) : List Char → Option (List Char × List Char)
  | [] => if pat.isPrefixOf ([] : List Char) then some ([], []) else none
  | c :: rest =>
    if pat.isPrefixOf (c :: rest) then some ([], (c :: rest).drop pat.length)
    else match splitFirst pat rest with
         | some (a, b) => some (c :: a, b)
         | none => none

/-- The backtick character (code point 96). -/
def btk : Char := Char.ofNat 96

/-- The Markdown fence delimiter, three backticks. -/
def fence : List Char := [btk, btk, btk]

/-- The optional language tag `json` of the fence regex. -/
def jsonTag : List Char := ['j', 's', 'o', 'n']

/-- The capture group of Python's
`re.search(r'&&&(?:json)?\s*([\s\S]*?)\s*&&&', t)` where `&&&` stands for
three backticks (`clean_json_response`, ai_service.py line 70), determinized:

* `re.search` tries start positions left to right, so the match is anchored
  at the first fence occurrence (if the full pattern fails there, every later
  start fails too: any later full match would exhibit a second fence
  occurrence after the first fence, which is exactly what failed).
* the optional group `(?:json)?` is greedy: it is consumed exactly when
  `json` literally follows the opening fence (consuming it never turns a
  match into a failure, since `json` contains no backtick).
* `\s*` before the capture is greedy: backticks are not whitespace, so the
  maximal whitespace run can always be taken.
* the capture `([\s\S]*?)` is lazy and `\s*` + closing fence follow: the
  capture ends at the first later fence occurrence, minus the whitespace run
  that immediately precedes it. -/
def regexExtract (t : List Char) : Option (List Char) :=
  match splitFirst fence t with
  | none => none
  | some (_, u) =>
    let u1 := if jsonTag.isPrefixOf u then u.drop 4 else u
    let v := u1.dropWhile isPySpace
    match splitFirst fence v with
    | none => none
    | some (a, _) => some (stripR a)

/-- `clean_json_response` (ai_service.py lines 64-73): strip the input; if it
contains a fence delimiter and the fence regex matches, return the stripped
capture group, else return the stripped input. -/
def clean_json_response (s : String) : String :=
  let t := pyStripList s.data
  if containsSeq fence t then
    match regexExtract t with
    | some g => String.mk (pyStripList g)
    | none => String.mk t
  else String.mk t

/-! ### Lemmas about strip and substring search -/

theorem dropWhile_idem (p : Char → Bool) (l : List Char) :
    (l.dropWhile p).dropWhile p = l.dropWhile p := by
  induction l with
  | nil => rfl
  | cons c rest ih =>
    by_cases h : p c
    · simp [List.dropWhile, h, ih]
    · simp [List.dropWhile, h]

theorem stripL_idem (l : List Char) : stripL (stripL l) = stripL l :=
  dropWhile_idem _ l

theorem stripR_idem (l : List Char) : stripR (stripR l) = stripR l := by
  simp [stripR, dropWhile_idem]

theorem stripR_isPref (l : List Char) : stripR l <+: l := by
  have h : (stripR l).reverse <:+ l.reverse := by
    simpa [stripR] using List.dropWhile_suffix (l := l.reverse) (p := isPySpace)
  exact List.reverse_suffix.mp h

theorem stripL_suffix (l : List Char) : stripL l <:+ l :=
  List.dropWhile_suffix _

theorem stripL_eq_self_of_pref {k m : List Char}
    (hm : stripL m = m) (hk : k <+: m) : stripL k = k := by
  cases k with
  | nil => rfl
  | cons c k2 =>
    obtain ⟨t, ht⟩ := hk
    have hc : isPySpace c = false := by
      cases hcc : isPySpace c
      · rfl
      · exfalso
        have h3 := hm
        rw [← ht] at h3
        have hm2 : List.dropWhile isPySpace (k2 ++ t) = c :: (k2 ++ t) := by
          simpa [stripL, List.dropWhile, hcc] using h3
        have hle : (List.dropWhile isPySpace (k2 ++ t)).length ≤ (k2 ++ t).length :=
          (List.dropWhile_suffix _).length_le
        rw [hm2] at hle
        simp at hle
    simp [stripL, List.dropWhile, hc]

theorem pyStripList_idem (l : List Char) :
    pyStripList (pyStripList l) = pyStripList l := by
  unfold pyStripList
  have h1 : stripL (stripR (stripL l)) = stripR (stripL l) :=
    stripL_eq_self_of_pref (stripL_idem l) (stripR_isPref (stripL l))
  rw [h1, stripR_idem]

theorem containsSeq_iff (pat l : List Char) :
    containsSeq pat l = true ↔ ∃ a b, l = a ++ pat ++ b := by
  induction l with
  | nil =>
    simp only [containsSeq]
    constructor
    · intro h
      have : pat <+: ([] : List Char) := by
        exact (List.isPrefixOf_iff_prefix).mp h
      obtain ⟨t, ht⟩ := this
      exact ⟨[], t, by simp at ht ⊢; simp [ht.1, ht.2]⟩
    · rintro ⟨a, b, h⟩
      have ha : a = [] ∧ pat = [] ∧ b = [] := by
        constructor
        · cases a with
          | nil => rfl
          | cons x xs => simp at h
        · constructor
          · cases a <;> cases pat <;> simp_all
          · cases a <;> cases pat <;> simp_all
      rw [ha.2.1]
      simp [List.isPrefixOf]
  | cons c rest ih =>
    simp only [containsSeq, Bool.or_eq_true]
    constructor
    · rintro (h | h)
      · obtain ⟨t, ht⟩ := (List.isPrefixOf_iff_prefix).mp h
        exact ⟨[], t, by simp [ht]⟩
      · obtain ⟨a, b, hab⟩ := ih.mp h
        exact ⟨c :: a, b, by simp [hab]⟩
    · rintro ⟨a, b, hab⟩
      cases a with
      | nil =>
        left
        apply (List.isPrefixOf_iff_prefix).mpr
        exact ⟨b, by simpa using hab.symm⟩
      | cons x xs =>
        right
        apply ih.mpr
        have h2 : c = x ∧ rest = xs ++ (pat ++ b) := by simpa using hab
        exact ⟨xs, b, by simpa using h2.2⟩

theorem containsSeq_of_infix {pat l m : List Char}
    (h : m <:+: l) (hm : containsSeq pat m = true) : containsSeq pat l = true := by
  rw [containsSeq_iff] at hm ⊢
  obtain ⟨a, b, hab⟩ := hm
  obtain ⟨s, t, hst⟩ := h
  exact ⟨s ++ a, b ++ t, by rw [← hst, hab]; simp⟩

theorem containsSeq_false_of_infix {pat l m : List Char}
    (h : m <:+: l) (hl : containsSeq pat l = false) : containsSeq pat m = false := by
  cases hc : containsSeq pat m
  · rfl
  · have := containsSeq_of_infix h hc
    rw [hl] at this
    exact absurd this (by simp)

theorem pyStripList_infix (l : List Char) : pyStripList l <:+: l := by
  have h1 : stripR (stripL l) <+: stripL l := stripR_isPref _
  have h2 : stripL l <:+ l := stripL_suffix l
  exact List.IsInfix.trans h1.isInfix h2.isInfix

/-- `splitFirst` is a genuine first-occurrence split: the prefix part contains
no occurrence of the (non-empty) pattern. -/
theorem splitFirst_some_spec {pat l a b : List Char} (hne : pat ≠ [])
    (h : splitFirst pat l = some (a, b)) :
    l = a ++ pat ++ b ∧ containsSeq pat a = false := by
  induction l generalizing a b with
  | nil =>
    simp only [splitFirst] at h
    have : ¬ pat.isPrefixOf ([] : List Char) = true := by
      cases pat with
      | nil => exact absurd rfl hne
      | cons x xs => simp [List.isPrefixOf]
    rw [if_neg this] at h
    exact absurd h (by simp)
  | cons c rest ih =>
    simp only [splitFirst] at h
    by_cases hp : pat.isPrefixOf (c :: rest) = true
    · rw [if_pos hp] at h
      obtain ⟨t, ht⟩ := (List.isPrefixOf_iff_prefix).mp hp
      have hinj : a = [] ∧ b = (c :: rest).drop pat.length := by
        constructor
        · exact (Prod.mk.injEq _ _ _ _ ▸ (Option.some.injEq _ _ ▸ h)).1.symm
        · exact (Prod.mk.injEq _ _ _ _ ▸ (Option.some.injEq _ _ ▸ h)).2.symm
      constructor
      · rw [hinj.1, hinj.2, List.nil_append, ← ht]
        rw [List.drop_append_of_le_length (by simp)]
        simp
      · rw [hinj.1]
        simp only [containsSeq]
        cases pat with
        | nil => exact absurd rfl hne
        | cons x xs => simp [List.isPrefixOf]
    · rw [if_neg hp] at h
      cases hrec : splitFirst pat rest with
      | none => rw [hrec] at h; exact absurd h (by simp)
      | some ab =>
        obtain ⟨a2, b2⟩ := ab
        rw [hrec] at h
        have hinj : a = c :: a2 ∧ b = b2 := by
          constructor
          · exact (Prod.mk.injEq _ _ _ _ ▸ (Option.some.injEq _ _ ▸ h)).1.symm
          · exact (Prod.mk.injEq _ _ _ _ ▸ (Option.some.injEq _ _ ▸ h)).2.symm
        obtain ⟨hrest, hfree⟩ := ih hrec
        constructor
        · rw [hinj.1, hinj.2, hrest]; simp
        · rw [hinj.1]
          simp only [containsSeq, Bool.or_eq_false_iff]
          refine ⟨?_, hfree⟩
          cases hp2 : pat.isPrefixOf (c :: a2)
          · rfl
          · exfalso
            apply hp
            apply (List.isPrefixOf_iff_prefix).mpr
            have h1 : pat <+: c :: a2 := (List.isPrefixOf_iff_prefix).mp hp2
            have h2 : c :: a2 <+: c :: rest := by
              refine ⟨pat ++ b2, ?_⟩
              rw [hrest]
              simp
            exact h1.trans h2

theorem fence_reverse : fence.reverse = fence := by decide

theorem btk_not_space : isPySpace btk = false := by decide

theorem containsSeq_reverse (pat l : List Char) :
    containsSeq pat.reverse l.reverse = containsSeq pat l := by
  rw [Bool.eq_iff_iff, containsSeq_iff, containsSeq_iff]
  constructor
  · rintro ⟨a, b, hab⟩
    refine ⟨b.reverse, a.reverse, ?_⟩
    have := congrArg List.reverse hab
    simpa using this
  · rintro ⟨a, b, hab⟩
    exact ⟨b.reverse, a.reverse, by rw [hab]; simp⟩

theorem containsSeq_fence_stripL (l : List Char) :
    containsSeq fence (stripL l) = containsSeq fence l := by
  induction l with
  | nil => rfl
  | cons c rest ih =>
    cases hcc : isPySpace c
    · simp [stripL, List.dropWhile, hcc]
    · have hne : (btk == c) = false := by
        cases hbc : btk == c
        · rfl
        · exfalso
          have : btk = c := by exact beq_iff_eq.mp hbc
          rw [← this] at hcc
          rw [btk_not_space] at hcc
          exact absurd hcc (by simp)
      have hpre : fence.isPrefixOf (c :: rest) = false := by
        simp only [fence, List.isPrefixOf, Bool.and_eq_false_iff]
        left
        exact hne
      have h1 : stripL (c :: rest) = stripL rest := by
        simp [stripL, List.dropWhile, hcc]
      rw [h1, ih]
      simp only [containsSeq, hpre]
      simp

theorem containsSeq_fence_stripR (l : List Char) :
    containsSeq fence (stripR l) = containsSeq fence l := by
  have h1 : containsSeq fence (stripR l) =
      containsSeq fence ((stripR l).reverse).reverse := by simp
  have h2 : containsSeq fence ((stripR l).reverse).reverse =
      containsSeq fence.reverse ((stripR l).reverse).reverse := by
    rw [fence_reverse]
  rw [h1, h2, containsSeq_reverse]
  have h3 : (stripR l).reverse = stripL l.reverse := by
    simp [stripR, stripL]
  rw [h3, containsSeq_fence_stripL]
  have h4 : containsSeq fence l.reverse =
      containsSeq fence.reverse l.reverse := by rw [fence_reverse]
  rw [h4, containsSeq_reverse]

theorem containsSeq_fence_pyStripList (l : List Char) :
    containsSeq fence (pyStripList l) = containsSeq fence l := by
  unfold pyStripList
  rw [containsSeq_fence_stripR, containsSeq_fence_stripL]

theorem fence_ne_nil : fence ≠ [] := by decide

/-- The capture group of the fence regex never contains a fence delimiter. -/
theorem regexExtract_fence_free {t g : List Char}
    (h : regexExtract t = some g) : containsSeq fence g = false := by
  unfold regexExtract at h
  cases h1 : splitFirst fence t with
  | none => rw [h1] at h; exact absurd h (by simp)
  | some p1 =>
    obtain ⟨pre, u⟩ := p1
    rw [h1] at h
    simp only at h
    cases h2 : splitFirst fence
        ((if jsonTag.isPrefixOf u then u.drop 4 else u).dropWhile isPySpace) with
    | none => rw [h2] at h; exact absurd h (by simp)
    | some p2 =>
      obtain ⟨a, b⟩ := p2
      rw [h2] at h
      simp only [Option.some.injEq] at h
      obtain ⟨_, hfree⟩ := splitFirst_some_spec fence_ne_nil h2
      have : containsSeq fence (stripR a) = false :=
        containsSeq_false_of_infix (stripR_isPref a).isInfix hfree
      rw [← h]
      exact this

theorem mk_data (l : List Char) : (String.mk l).data = l := rfl

theorem clean_of_not_contains {s : String}
    (h : containsSeq fence (pyStripList s.data) = false) :
    clean_json_response s = String.mk (pyStripList s.data) := by
  unfold clean_json_response
  simp [h]

theorem clean_of_extract_none {s : String}
    (h1 : containsSeq fence (pyStripList s.data) = true)
    (h2 : regexExtract (pyStripList s.data) = none) :
    clean_json_response s = String.mk (pyStripList s.data) := by
  unfold clean_json_response
  simp [h1, h2]

theorem clean_of_extract_some {s : String} {g : List Char}
    (h1 : containsSeq fence (pyStripList s.data) = true)
    (h2 : regexExtract (pyStripList s.data) = some g) :
    clean_json_response s = String.mk (pyStripList g) := by
  unfold clean_json_response
  simp [h1, h2]

/-- CLAIM C7 — `clean_json_response` is idempotent, and an input containing
no fence delimiter is returned stripped (trimmed) but otherwise unchanged. -/
theorem clean_json_response_idempotent (x : String) :
    clean_json_response (clean_json_response x) = clean_json_response x ∧
    (containsSeq fence x.data = false → clean_json_response x = pyStrip x) := by
  constructor
  · cases hcf : containsSeq fence (pyStripList x.data)
    · rw [clean_of_not_contains hcf]
      rw [clean_of_not_contains (by rw [mk_data, pyStripList_idem]; exact hcf)]
      rw [mk_data, pyStripList_idem]
    · cases hre : regexExtract (pyStripList x.data) with
      | none =>
        rw [clean_of_extract_none hcf hre]
        rw [clean_of_extract_none
          (by rw [mk_data, pyStripList_idem]; exact hcf)
          (by rw [mk_data, pyStripList_idem]; exact hre)]
        rw [mk_data, pyStripList_idem]
      | some g =>
        rw [clean_of_extract_some hcf hre]
        have hfree : containsSeq fence g = false := regexExtract_fence_free hre
        have hfree2 : containsSeq fence (pyStripList (pyStripList g)) = false := by
          rw [pyStripList_idem, containsSeq_fence_pyStripList]; exact hfree
        rw [clean_of_not_contains (by rw [mk_data]; exact hfree2)]
        rw [mk_data, pyStripList_idem]
  · intro hnc
    have : containsSeq fence (pyStripList x.data) = false := by
      rw [containsSeq_fence_pyStripList]; exact hnc
    rw [clean_of_not_contains this]
    rfl

/-- Witness for C7 at concrete inputs: a fenced payload and a plain one. -/
theorem clean_json_response_idempotent_witness :
    clean_json_response (clean_json_response "  hello  ") =
      clean_json_response "  hello  " ∧
    clean_json_response "  hello  " = pyStrip "  hello  " :=
  ⟨(clean_json_response_idempotent "  hello  ").1,
   (clean_json_response_idempotent "  hello  ").2 (by decide)⟩

/-! ### Python values and `json.loads`

`json.loads` produces Python values: `None`, booleans, ints, floats, strings,
lists and (insertion-ordered) dicts.  Floats are represented exactly as
`mantissa * 10 ^ exponent` (plus the non-finite constants `NaN`/`Infinity`
accepted by Python's json module); no claim depends on float rounding. -/

inductive PyVal where
  | noneV : PyVal
  | boolV (b : Bool) : PyVal
  | intV (n : Int) : PyVal
  | floatV (sig : Int) (ex : Int) : PyVal
  | nanV : PyVal
  | infV (neg : Bool) : PyVal
  | strV (s : String) : PyVal
  | listV (l : List PyVal) : PyVal
  | dictV (m : List (String × PyVal)) : PyVal
deriving Repr

/-- Python truthiness (`bool(v)`), as used by the `or` chains. -/
def truthy : PyVal → Bool
  | .noneV => false
  | .boolV b => b
  | .intV n => n != 0
  | .floatV sig _ => sig != 0
  | .nanV => true
  | .infV _ => true
  | .strV s => s != ""
  | .listV l => !l.isEmpty
  | .dictV m => !m.isEmpty

/-- Python `a or b` (value-returning, short-circuit on truthiness). -/
def pyOr (a b : PyVal) : PyVal := if truthy a then a else b

/-- `d.get(k)`: `None` when the key is absent. -/
def dictGet (m : List (String × PyVal)) (k : String) : PyVal :=
  match m.lookup k with
  | some v => v
  | none => .noneV

/-- `d.get(k, default)`. -/
def dictGetD (m : List (String × PyVal)) (k : String) (d : PyVal) : PyVal :=
  match m.lookup k with
  | some v => v
  | none => d

/-- `k in d` for a dict. -/
def containsKey (m : List (String × PyVal)) (k : String) : Bool :=
  m.any (fun p => p.1 = k)

/-- `d[k] = v`: replace in place if the key exists, else append. -/
def dictInsert : List (String × PyVal) → String → PyVal → List (String × PyVal)
  | [], k, v => [(k, v)]
  | (k0, v0) :: rest, k, v =>
    if k0 = k then (k0, v) :: rest else (k0, v0) :: dictInsert rest k v

/-- JSON whitespace (the json module's strict set: space, tab, LF, CR). -/
def isJsonWs (c : Char) : Bool := c = ' ' || c = '\t' || c = '\n' || c = '\r'

def skipJsonWs (l : List Char) : List Char := l.dropWhile isJsonWs

def isDigit (c : Char) : Bool := '0' ≤ c && c ≤ '9'

def digitsToNat (ds : List Char) : Nat :=
  ds.foldl (fun acc c => 10 * acc + (c.toNat - 48)) 0

def hexVal (c : Char) : Option Nat :=
  let n := c.toNat
  if 48 ≤ n && n ≤ 57 then some (n - 48)
  else if 97 ≤ n && n ≤ 102 then some (n - 87)
  else if 65 ≤ n && n ≤ 70 then some (n - 55)
  else none

def hex4 : List Char → Option (Nat × List Char)
  | a :: b :: c :: d :: rest =>
    match hexVal a, hexVal b, hexVal c, hexVal d with
    | some x, some y, some z, some w => some (((x * 16 + y) * 16 + z) * 16 + w, rest)
    | _, _, _, _ => none
  | _ => none

/-- Body of a JSON string literal, after the opening quote.  Strict mode:
unescaped control characters are rejected; `\uXXXX` escapes combine surrogate
pairs as Python's json module does (a lone surrogate, which Lean's `Char`
cannot represent, degrades to `Char.ofNat`'s fallback — unreachable in any
input considered here). -/
def parseStrBody : Nat → List Char → Option (List Char × List Char)
  | 0, _ => none
  | _ + 1, [] => none
  | fuel + 1, c :: rest =>
    if c = '"' then some ([], rest)
    else if c = '\\' then
      match rest with
      | [] => none
      | e :: rest2 =>
        let simpleEsc : Option Char :=
          if e = '"' then some '"'
          else if e = '\\' then some '\\'
          else if e = '/' then some '/'
          else if e = 'b' then some '\x08'
          else if e = 'f' then some '\x0c'
          else if e = 'n' then some '\n'
          else if e = 'r' then some '\r'
          else if e = 't' then some '\t'
          else Option.none
        match simpleEsc with
        | some ch =>
          match parseStrBody fuel rest2 with
          | some (cs, rem) => some (ch :: cs, rem)
          | none => none
        | none =>
          if e = 'u' then
            match hex4 rest2 with
            | none => none
            | some (n, rest3) =>
              if 0xd800 ≤ n && n ≤ 0xdbff then
                match rest3 with
                | '\\' :: 'u' :: rest4 =>
                  match hex4 rest4 with
                  | some (n2, rest5) =>
                    if 0xdc00 ≤ n2 && n2 ≤ 0xdfff then
                      let cp := 0x10000 + (n - 0xd800) * 0x400 + (n2 - 0xdc00)
                      match parseStrBody fuel rest5 with
                      | some (cs, rem) => some (Char.ofNat cp :: cs, rem)
                      | none => none
                    else
                      match parseStrBody fuel rest3 with
                      | some (cs, rem) => some (Char.ofNat n :: cs, rem)
                      | none => none
                  | none =>
                    match parseStrBody fuel rest3 with
                    | some (cs, rem) => some (Char.ofNat n :: cs, rem)
                    | none => none
                | _ =>
                  match parseStrBody fuel rest3 with
                  | some (cs, rem) => some (Char.ofNat n :: cs, rem)
                  | none => none
              else
                match parseStrBody fuel rest3 with
                | some (cs, rem) => some (Char.ofNat n :: cs, rem)
                | none => none
          else none
    else if c.toNat < 0x20 then none
    else
      match parseStrBody fuel rest with
      | some (cs, rem) => some (c :: cs, rem)
      | none => none

/-- The json module's number grammar
`(-?(?:0|[1-9]\d*))(\.\d+)?([eE][-+]?\d+)?` — returns an int unless a
fraction or exponent part is present. -/
def parseNumber (l : List Char) : Option (PyVal × List Char) :=
  let (negSign, l1) : Bool × List Char :=
    match l with
    | '-' :: rest => (true, rest)
    | _ => (false, l)
  let intPart : Option (List Char × List Char) :=
    match l1 with
    | '0' :: rest => some (['0'], rest)
    | c :: rest =>
      if isDigit c && c ≠ '0' then
        let (ds, rem) := rest.span isDigit
        some (c :: ds, rem)
      else none
    | [] => none
  match intPart with
  | none => none
  | some (ids, l2) =>
    let (fracDigits, l3) : List Char × List Char :=
      match l2 with
      | '.' :: rest =>
        let (ds, rem) := rest.span isDigit
        if ds.isEmpty then ([], l2) else (ds, rem)
      | _ => ([], l2)
    let (expOk, expNeg, expDigits, l4) : Bool × Bool × List Char × List Char :=
      match l3 with
      | c :: rest =>
        if c = 'e' || c = 'E' then
          let (sgn, rest2) : Bool × List Char :=
            match rest with
            | '+' :: r => (false, r)
            | '-' :: r => (true, r)
            | _ => (false, rest)
          let (ds, rem) := rest2.span isDigit
          if ds.isEmpty then (false, false, [], l3) else (true, sgn, ds, rem)
        else (false, false, [], l3)
      | [] => (false, false, [], l3)
    let intVal : Int := Int.ofNat (digitsToNat ids)
    let signedInt : Int := if negSign then -intVal else intVal
    if fracDigits.isEmpty && !expOk then
      some (.intV signedInt, l2)
    else
      let mant : Int :=
        let m := digitsToNat ids * 10 ^ fracDigits.length + digitsToNat fracDigits
        if negSign then -(Int.ofNat m) else Int.ofNat m
      let ex : Int :=
        (if expOk then (if expNeg then -(Int.ofNat (digitsToNat expDigits))
                        else Int.ofNat (digitsToNat expDigits)) else 0)
          - Int.ofNat fracDigits.length
      some (.floatV mant ex, l4)

def lbrace : Char := Char.ofNat 123

def rbrace : Char := Char.ofNat 125

def lbrack : Char := Char.ofNat 91

def rbrack : Char := Char.ofNat 93

/-! Recursive-descent JSON value parser mirroring Python's json module
(strict mode, with the module's `NaN`/`Infinity`/`-Infinity` extensions and
last-wins duplicate object keys).  `fuel` bounds recursion; every recursive
call consumes at least one input character, so `length + 1` fuel suffices. -/
mutual

def parseVal : Nat → List Char → Option (PyVal × List Char)
  | 0, _ => none
  | fuel + 1, l =>
    match l with
    | [] => none
    | c :: rest =>
      if c = '"' then
        match parseStrBody (rest.length + 1) rest with
        | some (cs, rem) => some (.strV (String.mk cs), rem)
        | none => none
      else if c = lbrace then
        match skipJsonWs rest with
        | [] => none
        | c2 :: r2 =>
          if c2 = rbrace then some (.dictV [], r2)
          else
            match parseMembers fuel [] (c2 :: r2) with
            | some (m, rem) => some (.dictV m, rem)
            | none => none
      else if c = lbrack then
        match skipJsonWs rest with
        | [] => none
        | c2 :: r2 =>
          if c2 = rbrack then some (.listV [], r2)
          else
            match parseElems fuel [] (c2 :: r2) with
            | some (es, rem) => some (.listV es, rem)
            | none => none
      else if "true".data.isPrefixOf l then some (.boolV true, l.drop 4)
      else if "false".data.isPrefixOf l then some (.boolV false, l.drop 5)
      else if "null".data.isPrefixOf l then some (.noneV, l.drop 4)
      else if "NaN".data.isPrefixOf l then some (.nanV, l.drop 3)
      else if "Infinity".data.isPrefixOf l then some (.infV false, l.drop 8)
      else if "-Infinity".data.isPrefixOf l then some (.infV true, l.drop 9)
      else parseNumber l

def parseMembers : Nat → List (String × PyVal) → List Char →
    Option (List (String × PyVal) × List Char)
  | 0, _, _ => none
  | fuel + 1, acc, l =>
    match l with
    | [] => none
    | c :: rest =>
      if c = '"' then
        match parseStrBody (rest.length + 1) rest with
        | none => none
        | some (cs, rem) =>
          match skipJsonWs rem with
          | ':' :: rem3 =>
            match parseVal fuel (skipJsonWs rem3) with
            | none => none
            | some (v, rem4) =>
              let acc2 := dictInsert acc (String.mk cs) v
              match skipJsonWs rem4 with
              | [] => none
              | c2 :: rem6 =>
                if c2 = ',' then parseMembers fuel acc2 (skipJsonWs rem6)
                else if c2 = rbrace then some (acc2, rem6)
                else none
          | _ => none
      else none

def parseElems : Nat → List PyVal → List Char → Option (List PyVal × List Char)
  | 0, _, _ => none
  | fuel + 1, acc, l =>
    match parseVal fuel l with
    | none => none
    | some (v, rem) =>
      match skipJsonWs rem with
      | [] => none
      | c2 :: rem2 =>
        if c2 = ',' then parseElems fuel (acc ++ [v]) (skipJsonWs rem2)
        else if c2 = rbrack then some (acc ++ [v], rem2)
        else none

end

/-- `json.loads`: parse one JSON value, allowing surrounding whitespace;
anything left over is an error. -/
def json_loads (s : String) : Option PyVal :=
  match parseVal (s.data.length + 1) (skipJsonWs s.data) with
  | some (v, rest) => if (skipJsonWs rest).isEmpty then some v else none
  | none => none

/-! ### Dates (`datetime.date`) and the calendar context builder -/

/-- Python exception values relevant to the embedded code. -/
inductive PyErr where
  | valueError (msg : String) : PyErr
  | overflowError : PyErr
  | typeError : PyErr
  | attributeError : PyErr
deriving Repr, DecidableEq

/-- Gregorian leap year, as `calendar.isleap` / `datetime` use it. -/
def isLeap (y : Nat) : Bool := (y % 4 = 0 && y % 100 ≠ 0) || y % 400 = 0

def daysInMonth (y m : Nat) : Nat :=
  if m = 2 then (if isLeap y then 29 else 28)
  else if m = 4 || m = 6 || m = 9 || m = 11 then 30
  else 31

/-- A calendar date, year/month/day. -/
structure Ymd where
  y : Nat
  m : Nat
  d : Nat
deriving Repr, DecidableEq

/-- A structurally well-formed proleptic Gregorian date (no year upper
bound; `datetime`'s year range is checked separately by `inRange`). -/
def properYmd (a : Ymd) : Prop :=
  1 ≤ a.y ∧ 1 ≤ a.m ∧ a.m ≤ 12 ∧ 1 ≤ a.d ∧ a.d ≤ daysInMonth a.y a.m

instance (a : Ymd) : Decidable (properYmd a) := by
  unfold properYmd; infer_instance

/-- `datetime.date`'s supported years (MINYEAR = 1 to MAXYEAR = 9999);
date arithmetic leaving this range raises OverflowError. -/
def inRange (a : Ymd) : Bool := 1 ≤ a.y && a.y ≤ 9999

/-- The day after (pure successor; range checking is the caller's job,
mirroring how `timedelta` addition only checks the final ordinal). -/
def nextDay (a : Ymd) : Ymd :=
  if a.d < daysInMonth a.y a.m then ⟨a.y, a.m, a.d + 1⟩
  else if a.m < 12 then ⟨a.y, a.m + 1, 1⟩
  else ⟨a.y + 1, 1, 1⟩

/-- The day before. -/
def prevDay (a : Ymd) : Ymd :=
  if 1 < a.d then ⟨a.y, a.m, a.d - 1⟩
  else if 1 < a.m then ⟨a.y, a.m - 1, daysInMonth a.y (a.m - 1)⟩
  else ⟨a.y - 1, 12, 31⟩

/-- `date + timedelta(days = n)`. -/
def addDays : Nat → Ymd → Ymd
  | 0, a => a
  | n + 1, a => nextDay (addDays n a)

/-- `date < date` — `datetime` order is chronological, which coincides with
lexicographic order on (year, month, day). -/
def ymdLt (a b : Ymd) : Prop :=
  a.y < b.y ∨ (a.y = b.y ∧ (a.m < b.m ∨ (a.m = b.m ∧ a.d < b.d)))

instance (a b : Ymd) : Decidable (ymdLt a b) := by
  unfold ymdLt; infer_instance

/-- Leap days in years 1..y. -/
def leapsUpTo (y : Nat) : Nat := y / 4 - y / 100 + y / 400

def daysBeforeYear (y : Nat) : Nat := 365 * (y - 1) + leapsUpTo (y - 1)

def daysBeforeMonth (y m : Nat) : Nat :=
  (List.range (m - 1)).foldl (fun acc i => acc + daysInMonth y (i + 1)) 0

/-- `date.toordinal()`: day 1 is 0001-01-01. -/
def toOrdinal (a : Ymd) : Nat :=
  daysBeforeYear a.y + daysBeforeMonth a.y a.m + a.d

/-- `date.weekday()`: Monday = 0 .. Sunday = 6 (0001-01-01, ordinal 1, was
a Monday). -/
def weekday (a : Ymd) : Nat := (toOrdinal a + 6) % 7

def weekdays_cn : List String := ["周一", "周二", "周三", "周四", "周五", "周六", "周日"]

def wdName (a : Ymd) : String := weekdays_cn.getD (weekday a) ""

/-- One line of the calendar reference: the date, its weekday name, and its
semantic tags. -/
structure CalEntry where
  date : Ymd
  weekdayName : String
  tags : List String
deriving Repr, DecidableEq

/-- The "yesterday" line (ai_service.py line 237). -/
def historyEntry (yd : Ymd) : CalEntry :=
  ⟨yd, wdName yd, ["昨天", toString yd.d ++ "号", "历史"]⟩

/-- Tags of day `today + i` (ai_service.py lines 241-255). -/
def dayTags (i : Nat) (d nm nnm : Ymd) : List String :=
  (if i = 0 then ["今天"] else if i = 1 then ["明天"]
   else if i = 2 then ["后天"] else [])
  ++ (if ymdLt d nm then ["本周", "本" ++ wdName d]
      else if ymdLt d nnm then ["下周", "下" ++ wdName d]
      else ["下下周"])
  ++ [toString d.d ++ "号"]

def calEntry (today nm nnm : Ymd) (i : Nat) : CalEntry :=
  let d := addDays i today
  ⟨d, wdName d, dayTags i d nm nnm⟩

/-- The 16 calendar entries produced for a given today (yesterday first,
then today .. today+14), before range checking. -/
def calendarEntries (today : Ymd) : List CalEntry :=
  let nm := addDays (7 - weekday today) today
  let nnm := addDays 7 nm
  historyEntry (prevDay today) :: (List.range 15).map (calEntry today nm nnm)

/-- `get_calendar_context`'s computation (ai_service.py lines 223-259) at the
entry level, with the `OverflowError` checks `datetime` arithmetic performs,
in the order the code runs them: `next_monday`, `next_next_monday`,
`yesterday`, then the loop days (of which `today + 14`, by monotonicity, is
the only binding one). -/
def buildCalendar (today : Ymd) : Except PyErr (List CalEntry) :=
  let nm := addDays (7 - weekday today) today
  if !inRange nm then .error .overflowError
  else if !inRange (addDays 7 nm) then .error .overflowError
  else if !inRange (prevDay today) then .error .overflowError
  else if !inRange (addDays 14 today) then .error .overflowError
  else .ok (calendarEntries today)

/-- `strptime`'s `%m` directive: `1[0-2]|0[1-9]|[1-9]` (one or two digits). -/
def parseMonthDigits : List Char → Option (Nat × List Char)
  | a :: b :: rest =>
    if a = '1' && ('0' ≤ b && b ≤ '2') then some (10 + (b.toNat - 48), rest)
    else if a = '0' && ('1' ≤ b && b ≤ '9') then some (b.toNat - 48, rest)
    else if '1' ≤ a && a ≤ '9' then some (a.toNat - 48, b :: rest)
    else none
  | [a] => if '1' ≤ a && a ≤ '9' then some (a.toNat - 48, []) else none
  | [] => none

/-- `strptime`'s `%d` directive: `3[01]|[12]\d|0[1-9]|[1-9]`. -/
def parseDayDigits : List Char → Option (Nat × List Char)
  | a :: b :: rest =>
    if a = '3' && (b = '0' || b = '1') then some (30 + (b.toNat - 48), rest)
    else if (a = '1' || a = '2') && isDigit b then
      some ((a.toNat - 48) * 10 + (b.toNat - 48), rest)
    else if a = '0' && ('1' ≤ b && b ≤ '9') then some (b.toNat - 48, rest)
    else if '1' ≤ a && a ≤ '9' then some (a.toNat - 48, b :: rest)
    else none
  | [a] => if '1' ≤ a && a ≤ '9' then some (a.toNat - 48, []) else none
  | [] => none

/-- `datetime.strptime(s, "%Y-%m-%d")`: `%Y` is exactly four digits, the
hyphens are literal, the whole string must be consumed, and constructing the
date validates month range, day-of-month range and MINYEAR. -/
def strptime_Ymd (s : String) : Except PyErr Ymd :=
  match s.data with
  | y1 :: y2 :: y3 :: y4 :: '-' :: rest =>
    if isDigit y1 && isDigit y2 && isDigit y3 && isDigit y4 then
      let y := ((y1.toNat - 48) * 10 + (y2.toNat - 48)) * 100 +
               ((y3.toNat - 48) * 10 + (y4.toNat - 48))
      match parseMonthDigits rest with
      | some (m, rest2) =>
        match rest2 with
        | '-' :: rest3 =>
          match parseDayDigits rest3 with
          | some (d, rest4) =>
            if rest4.isEmpty then
              if 1 ≤ y && d ≤ daysInMonth y m then .ok ⟨y, m, d⟩
              else .error (.valueError "day is out of range for month")
            else .error (.valueError "unconverted data remains")
          | none => .error (.valueError "time data does not match format")
        | _ => .error (.valueError "time data does not match format")
      | none => .error (.valueError "time data does not match format")
    else .error (.valueError "time data does not match format")
  | _ => .error (.valueError "time data does not match format")

def pad2 (n : Nat) : String := if n < 10 then "0" ++ toString n else toString n

/-- `date.strftime("%Y-%m-%d")` as it behaves on the service's Linux/glibc
platform: `%m` and `%d` are zero-padded to two digits, while `%Y` is not
padded (year 555 renders as "555", not "0555"). -/
def isoOf (a : Ymd) : String := toString a.y ++ "-" ++ pad2 a.m ++ "-" ++ pad2 a.d

/-- One rendered line of the calendar reference. -/
def renderEntry (e : CalEntry) : String :=
  "- " ++ isoOf e.date ++ " 是 " ++ e.weekdayName ++
    " (" ++ String.intercalate ", " e.tags ++ ")"

/-- `get_calendar_context(today_iso)` at the entry level: parse the date,
then build (both stages can raise). -/
def get_calendar_entries (today_iso : String) : Except PyErr (List CalEntry) :=
  match strptime_Ymd today_iso with
  | .error e => .error e
  | .ok today => buildCalendar today

/-- `get_calendar_context(today_iso)`: the newline-joined rendering. -/
def get_calendar_context (today_iso : String) : Except PyErr String :=
  match get_calendar_entries today_iso with
  | .error e => .error e
  | .ok es => .ok (String.intercalate "\n" (es.map renderEntry))

/-! ### Date arithmetic lemmas -/

theorem one_le_daysInMonth (y m : Nat) : 1 ≤ daysInMonth y m := by
  unfold daysInMonth
  split_ifs <;> omega

theorem properYmd_nextDay {a : Ymd} (h : properYmd a) : properYmd (nextDay a) := by
  obtain ⟨h1, h2, h3, h4, h5⟩ := h
  have hdim1 := one_le_daysInMonth a.y (a.m + 1)
  have hdim2 := one_le_daysInMonth (a.y + 1) 1
  unfold nextDay properYmd
  split_ifs with hd hm <;> simp only [] <;> exact ⟨by omega, by omega, by omega,
    by omega, by omega⟩

theorem ymdLt_nextDay {a : Ymd} (h : properYmd a) : ymdLt a (nextDay a) := by
  obtain ⟨h1, h2, h3, h4, h5⟩ := h
  unfold nextDay ymdLt
  split_ifs with hd hm
  · exact Or.inr ⟨rfl, Or.inr ⟨rfl, Nat.lt_succ_self a.d⟩⟩
  · exact Or.inr ⟨rfl, Or.inl (Nat.lt_succ_self a.m)⟩
  · exact Or.inl (Nat.lt_succ_self a.y)

theorem ymdLt_trans {a b c : Ymd} (h1 : ymdLt a b) (h2 : ymdLt b c) :
    ymdLt a c := by
  unfold ymdLt at h1 h2 ⊢
  omega

theorem ymdLt_irrefl (a : Ymd) : ¬ ymdLt a a := by
  unfold ymdLt
  omega

theorem ymdLt_asymm {a b : Ymd} (h : ymdLt a b) : ¬ ymdLt b a := by
  unfold ymdLt at h ⊢
  omega

theorem ymdLt_y_le {a b : Ymd} (h : ymdLt a b) : a.y ≤ b.y := by
  unfold ymdLt at h
  omega

theorem properYmd_addDays {a : Ymd} (h : properYmd a) (n : Nat) :
    properYmd (addDays n a) := by
  induction n with
  | zero => exact h
  | succ n ih => exact properYmd_nextDay ih

theorem addDays_lt_of_lt {a : Ymd} (h : properYmd a) {i j : Nat} (hij : i < j) :
    ymdLt (addDays i a) (addDays j a) := by
  induction j with
  | zero => omega
  | succ j ih =>
    by_cases hij2 : i = j
    · subst hij2
      exact ymdLt_nextDay (properYmd_addDays h i)
    · exact ymdLt_trans (ih (by omega)) (ymdLt_nextDay (properYmd_addDays h j))

theorem addDays_lt_iff {a : Ymd} (h : properYmd a) (i j : Nat) :
    ymdLt (addDays i a) (addDays j a) ↔ i < j := by
  constructor
  · intro hlt
    by_contra hge
    rcases Nat.lt_or_ge j i with hj | hj
    · exact ymdLt_asymm hlt (addDays_lt_of_lt h hj)
    · have : i = j := by omega
      subst this
      exact ymdLt_irrefl _ hlt
  · exact addDays_lt_of_lt h

theorem addDays_add (m n : Nat) (a : Ymd) :
    addDays (m + n) a = addDays m (addDays n a) := by
  induction m with
  | zero => simp [addDays]
  | succ m ih =>
    have : m + 1 + n = (m + n) + 1 := by omega
    rw [this]
    show nextDay (addDays (m + n) a) = nextDay (addDays m (addDays n a))
    rw [ih]

theorem addDays_y_le {a : Ymd} (h : properYmd a) {i j : Nat} (hij : i ≤ j) :
    (addDays i a).y ≤ (addDays j a).y := by
  rcases Nat.lt_or_ge i j with hlt | hge
  · exact ymdLt_y_le (addDays_lt_of_lt h hlt)
  · have : i = j := by omega
    subst this
    exact le_refl _

theorem weekday_lt (a : Ymd) : weekday a < 7 := Nat.mod_lt _ (by omega)

theorem ymdLt_prevDay {a : Ymd} (h : properYmd a) : ymdLt (prevDay a) a := by
  obtain ⟨h1, h2, h3, h4, h5⟩ := h
  unfold prevDay ymdLt
  split_ifs with hd hm <;> simp <;> omega

theorem inRange_addDays_of {D : Ymd} (hp : properYmd D)
    (h14 : inRange (addDays 14 D) = true) {k : Nat} (hk : k ≤ 14) :
    inRange (addDays k D) = true := by
  have hlow : D.y ≤ (addDays k D).y := addDays_y_le hp (Nat.zero_le k)
  have hhigh : (addDays k D).y ≤ (addDays 14 D).y := addDays_y_le hp hk
  unfold inRange at h14 ⊢
  simp only [Bool.and_eq_true, decide_eq_true_eq] at h14 ⊢
  obtain ⟨hp1, _, _, _, _⟩ := hp
  omega

theorem buildCalendar_ok {D : Ymd} (hp : properYmd D)
    (h1 : inRange (prevDay D) = true) (h2 : inRange (addDays 14 D) = true) :
    buildCalendar D = .ok (calendarEntries D) := by
  have hw : weekday D < 7 := weekday_lt D
  have hnm : inRange (addDays (7 - weekday D) D) = true :=
    inRange_addDays_of hp h2 (by omega)
  have hnnm : inRange (addDays 7 (addDays (7 - weekday D) D)) = true := by
    rw [← addDays_add]
    exact inRange_addDays_of hp h2 (by omega)
  unfold buildCalendar
  simp only [hnm, hnnm, h1, h2, Bool.not_true, Bool.false_eq_true, if_false]

theorem calendarEntries_dates (D : Ymd) :
    (calendarEntries D).map CalEntry.date =
      prevDay D :: (List.range 15).map (fun i => addDays i D) := by
  simp only [calendarEntries, List.map_cons, List.map_map]
  rfl

theorem calendarEntries_get_succ (D : Ymd) {k : Nat} (hk : k < 15) :
    (calendarEntries D)[k + 1]? =
      some (calEntry D (addDays (7 - weekday D) D)
        (addDays 7 (addDays (7 - weekday D) D)) k) := by
  simp only [calendarEntries, List.getElem?_cons_succ, List.getElem?_map,
    List.getElem?_range hk]
  rfl

/-- CLAIM C2 (amended: restricted to dates whose surrounding window
`D-1 .. D+14` stays inside `datetime`'s supported year range 1..9999; outside
it the builder raises OverflowError) — the calendar builder returns exactly
16 entries in ascending chronological order: the `history` entry for `D-1`
first, then the 15 days `D .. D+14`, with the entries at offsets 0, 1, 2
tagged today (今天), tomorrow (明天) and day-after-tomorrow (后天). -/
theorem calendar_build_sixteen_entries (D : Ymd) (hp : properYmd D)
    (h1 : inRange (prevDay D) = true) (h14 : inRange (addDays 14 D) = true) :
    buildCalendar D = .ok (calendarEntries D) ∧
    (calendarEntries D).length = 16 ∧
    (calendarEntries D)[0]? = some (historyEntry (prevDay D)) ∧
    "历史" ∈ (historyEntry (prevDay D)).tags ∧
    (calendarEntries D).map CalEntry.date =
      prevDay D :: (List.range 15).map (fun i => addDays i D) ∧
    ((calendarEntries D).map CalEntry.date).Pairwise ymdLt ∧
    (∃ e, (calendarEntries D)[1]? = some e ∧ e.date = addDays 0 D ∧ "今天" ∈ e.tags) ∧
    (∃ e, (calendarEntries D)[2]? = some e ∧ e.date = addDays 1 D ∧ "明天" ∈ e.tags) ∧
    (∃ e, (calendarEntries D)[3]? = some e ∧ e.date = addDays 2 D ∧ "后天" ∈ e.tags) := by
  refine ⟨buildCalendar_ok hp h1 h14, by simp [calendarEntries], by simp [calendarEntries],
    by simp [historyEntry], calendarEntries_dates D, ?_, ?_, ?_, ?_⟩
  · rw [calendarEntries_dates D]
    apply List.pairwise_cons.mpr
    constructor
    · intro b hb
      obtain ⟨i, _, rfl⟩ := List.mem_map.mp hb
      cases i with
      | zero => exact ymdLt_prevDay hp
      | succ i =>
        exact ymdLt_trans (ymdLt_prevDay hp)
          (addDays_lt_of_lt hp (Nat.succ_pos i) :
            ymdLt (addDays 0 D) (addDays (i + 1) D))
    · exact (List.pairwise_lt_range 15).map _ (fun _ _ hab => addDays_lt_of_lt hp hab)
  · exact ⟨_, calendarEntries_get_succ D (by omega), rfl, by simp [calEntry, dayTags]⟩
  · exact ⟨_, calendarEntries_get_succ D (by omega), rfl, by simp [calEntry, dayTags]⟩
  · exact ⟨_, calendarEntries_get_succ D (by omega), rfl, by simp [calEntry, dayTags]⟩

/-- Witness for C2 at D = 2025-06-10. -/
theorem calendar_build_sixteen_entries_witness :
    buildCalendar ⟨2025, 6, 10⟩ = .ok (calendarEntries ⟨2025, 6, 10⟩) ∧
    (calendarEntries ⟨2025, 6, 10⟩).length = 16 :=
  ⟨(calendar_build_sixteen_entries ⟨2025, 6, 10⟩ (by decide) (by decide) (by decide)).1,
   (calendar_build_sixteen_entries ⟨2025, 6, 10⟩ (by decide) (by decide) (by decide)).2.1⟩

/-- Counterexample to C2 as stated: "0001-01-01" is a valid ISO date, but the
builder raises OverflowError (computing yesterday underflows `date.min`)
instead of returning 16 entries. -/
theorem calendar_build_sixteen_entries_cex :
    get_calendar_entries "0001-01-01" = .error .overflowError := by rfl

/-- CLAIM C1 (amended: restricted to dates whose surrounding window
`D-1 .. D+14` stays inside `datetime`'s supported year range 1..9999;
outside it the builder raises OverflowError) — `next_monday` is
`D + (7 - weekday(D))` days (7 days out when D is a Monday); a day `D+i`
is before `next_monday` iff `i < 7 - weekday(D)` and before
`next_monday + 7` iff `i < 14 - weekday(D)`; each forward entry is tagged
this-week (本周) + this-weekday, next-week (下周) + next-weekday, or
next-next-week (下下周) by those cutoffs, and always carries its
day-of-month (号) tag.  Concretely for D = 2025-06-10 (a Tuesday,
weekday 1): the entry for 2025-06-16 (a Monday) is tagged 下周 and
2025-06-09 is the history entry. -/
theorem calendar_week_tagging (D : Ymd) (hp : properYmd D)
    (h1 : inRange (prevDay D) = true) (h14 : inRange (addDays 14 D) = true) :
    buildCalendar D = .ok (calendarEntries D) ∧
    (weekday D = 0 → addDays (7 - weekday D) D = addDays 7 D) ∧
    (∀ i, i < 15 →
      (ymdLt (addDays i D) (addDays (7 - weekday D) D) ↔ i < 7 - weekday D) ∧
      (ymdLt (addDays i D) (addDays 7 (addDays (7 - weekday D) D)) ↔
        i < 14 - weekday D)) ∧
    (∀ i, i < 15 → ∃ e, (calendarEntries D)[i + 1]? = some e ∧
      e.date = addDays i D ∧
      (i < 7 - weekday D →
        "本周" ∈ e.tags ∧ ("本" ++ wdName (addDays i D)) ∈ e.tags) ∧
      (7 - weekday D ≤ i → i < 14 - weekday D →
        "下周" ∈ e.tags ∧ ("下" ++ wdName (addDays i D)) ∈ e.tags) ∧
      (14 - weekday D ≤ i → "下下周" ∈ e.tags) ∧
      (toString (addDays i D).d ++ "号") ∈ e.tags) ∧
    (get_calendar_entries "2025-06-10" = .ok (calendarEntries ⟨2025, 6, 10⟩) ∧
     weekday (⟨2025, 6, 10⟩ : Ymd) = 1 ∧
     (∃ e, (calendarEntries ⟨2025, 6, 10⟩)[7]? = some e ∧
       isoOf e.date = "2025-06-16" ∧ weekday e.date = 0 ∧ "下周" ∈ e.tags) ∧
     (calendarEntries ⟨2025, 6, 10⟩)[0]? = some (historyEntry ⟨2025, 6, 9⟩) ∧
     isoOf (⟨2025, 6, 9⟩ : Ymd) = "2025-06-09") := by
  have hw : weekday D < 7 := weekday_lt D
  have hiff1 : ∀ i, ymdLt (addDays i D) (addDays (7 - weekday D) D) ↔
      i < 7 - weekday D := fun i => addDays_lt_iff hp i (7 - weekday D)
  have hiff2 : ∀ i, ymdLt (addDays i D) (addDays 7 (addDays (7 - weekday D) D)) ↔
      i < 14 - weekday D := by
    intro i
    rw [← addDays_add]
    rw [addDays_lt_iff hp]
    omega
  refine ⟨buildCalendar_ok hp h1 h14, ?_, fun i _ => ⟨hiff1 i, hiff2 i⟩,
    ?_, ?_, ?_, ?_, ?_, ?_⟩
  · intro h
    rw [h]
  · intro i hi
    refine ⟨_, calendarEntries_get_succ D hi, rfl, ?_, ?_, ?_, ?_⟩
    · intro hlt
      have hc : ymdLt (addDays i D) (addDays (7 - weekday D) D) := (hiff1 i).mpr hlt
      simp only [calEntry, dayTags]
      rw [if_pos hc]
      simp
    · intro h7 h14i
      have hnc : ¬ ymdLt (addDays i D) (addDays (7 - weekday D) D) := by
        rw [hiff1 i]; omega
      have hc2 : ymdLt (addDays i D) (addDays 7 (addDays (7 - weekday D) D)) :=
        (hiff2 i).mpr h14i
      simp only [calEntry, dayTags]
      rw [if_neg hnc, if_pos hc2]
      simp
    · intro h14i
      have hnc : ¬ ymdLt (addDays i D) (addDays (7 - weekday D) D) := by
        rw [hiff1 i]; omega
      have hnc2 : ¬ ymdLt (addDays i D) (addDays 7 (addDays (7 - weekday D) D)) := by
        rw [hiff2 i]; omega
      simp only [calEntry, dayTags]
      rw [if_neg hnc, if_neg hnc2]
      simp
    · simp only [calEntry, dayTags]
      split_ifs <;> simp
  · rfl
  · decide
  · exact ⟨_, rfl, by decide, by decide, by decide⟩
  · decide
  · decide

/-- Witness for C1 at D = 2025-06-10 (weekday 1): day offset 6 falls before
`next_monday + 7` but not before `next_monday`. -/
theorem calendar_week_tagging_witness :
    ymdLt (addDays 6 ⟨2025, 6, 10⟩) (addDays 7 (addDays (7 - weekday ⟨2025, 6, 10⟩) ⟨2025, 6, 10⟩)) ↔
      (6 : Nat) < 14 - weekday ⟨2025, 6, 10⟩ :=
  ((calendar_week_tagging ⟨2025, 6, 10⟩ (by decide) (by decide) (by decide)).2.2.1
    6 (by omega)).2

/-- Counterexample to C1 as stated: "9999-12-31" is a valid ISO date, but
the builder raises OverflowError (computing `next_monday` passes
`date.max`) instead of tagging a 15-day window. -/
theorem calendar_week_tagging_cex :
    get_calendar_entries "9999-12-31" = .error .overflowError := by rfl

/-! ### Provider configuration (`config.py`, `get_ai_config`) -/

/-- The configuration surface of `Settings` (config.py) used by the AI
service, with config.py's declared defaults (each field is
environment-overridable, so theorems quantify over all values). -/
structure Settings where
  GEMINI_API_KEY : String := ""
  GEMINI_BASE_URL : String := ""
  GEMINI_MODEL : String := "gemini-2.0-flash"
  OPENAI_API_KEY : String := ""
  OPENAI_BASE_URL : String := "https://api.openai.com/v1"
  OPENAI_MODEL : String := "gpt-4o-mini"
  SILICONFLOW_API_KEY : String := ""
  SILICONFLOW_BASE_URL : String := "https://api.siliconflow.cn/v1"
  SILICONFLOW_MODEL : String := "Qwen/Qwen2.5-7B-Instruct"
  DEEPSEEK_API_KEY : String := ""
  DEEPSEEK_BASE_URL : String := "https://api.deepseek.com"
  DEEPSEEK_MODEL : String := "deepseek-chat"
  AI_DEFAULT_PROVIDER : String := "siliconflow"
deriving Repr, DecidableEq

/-- The dict returned by `get_ai_config`. -/
structure AIConfig where
  provider : String
  api_key : String
  model : String
  base_url : String
deriving Repr, DecidableEq

/-- `str.lower()` (ASCII case folding — provider identifiers are ASCII). -/
def pyLower (s : String) : String := String.mk (s.data.map Char.toLower)

/-- `get_ai_config` (ai_service.py lines 18-61): `provider or default`
(Python `or` treats `None` and `""` as absent), lowercased, then the
if/elif chain over the four known providers with a final Gemini fallback. -/
def get_ai_config (st : Settings) (provider : Option String) : AIConfig :=
  let p := pyLower (match provider with
    | Option.none => st.AI_DEFAULT_PROVIDER
    | Option.some s => if s = "" then st.AI_DEFAULT_PROVIDER else s)
  if p = "gemini" then ⟨"gemini", st.GEMINI_API_KEY, st.GEMINI_MODEL, st.GEMINI_BASE_URL⟩
  else if p = "openai" then
    ⟨"openai", st.OPENAI_API_KEY, st.OPENAI_MODEL, st.OPENAI_BASE_URL⟩
  else if p = "siliconflow" then
    ⟨"siliconflow", st.SILICONFLOW_API_KEY, st.SILICONFLOW_MODEL, st.SILICONFLOW_BASE_URL⟩
  else if p = "deepseek" then
    ⟨"deepseek", st.DEEPSEEK_API_KEY, st.DEEPSEEK_MODEL, st.DEEPSEEK_BASE_URL⟩
  else ⟨"gemini", st.GEMINI_API_KEY, st.GEMINI_MODEL, st.GEMINI_BASE_URL⟩

/-! ### The AI gateway (`call_ai`, `call_ai_with_audio`)

The network transport (httpx / the OpenAI SDK / the Gemini SDK) is modelled
as an oracle: each provider-family client maps the prompt (and audio) to a
raw-text result or a transport exception.  `call_gemini`'s internal
alternate-URL retry is inside the oracle (its net observable behaviour is
one `Except` outcome).  Each `call_*` returns its result paired with a flag
recording whether the transport was consulted at all. -/

structure NetOracle where
  gemini : String → Except PyErr String
  openaiCompat : String → Except PyErr String
  geminiAudio : String → String → String → Except PyErr String

/-- `call_ai` (ai_service.py lines 195-205): empty api_key raises ValueError
before any network use; otherwise dispatch by provider family. -/
def call_ai (st : Settings) (provider : Option String) (net : NetOracle)
    (prompt : String) : Except PyErr String × Bool :=
  let config := get_ai_config st provider
  if config.api_key = "" then
    (.error (.valueError ("未配置 " ++ config.provider ++ " 的 API Key")), false)
  else if config.provider = "gemini" then (net.gemini prompt, true)
  else (net.openaiCompat prompt, true)

/-- `call_openai_compatible_with_audio` (lines 187-190): the OpenAI-compatible
family does not support audio; the call only logs a warning and returns the
literal empty-items JSON, touching no network. -/
def call_openai_compatible_with_audio (audio_base64 mime_type prompt : String)
    (config : AIConfig) : String :=
  "\x7b\"items\": []\x7d"

/-- `call_ai_with_audio` (lines 208-218). -/
def call_ai_with_audio (st : Settings) (provider : Option String) (net : NetOracle)
    (audio_base64 mime_type prompt : String) : Except PyErr String × Bool :=
  let config := get_ai_config st provider
  if config.api_key = "" then
    (.error (.valueError ("未配置 " ++ config.provider ++ " 的 API Key")), false)
  else if config.provider = "gemini" then
    (net.geminiAudio audio_base64 mime_type prompt, true)
  else (.ok (call_openai_compatible_with_audio audio_base64 mime_type prompt config), false)
def textPrompt (text today_iso today_str calendar_str : String) : String :=
  "You are a task extraction assistant. Today is " ++
  today_iso ++
  " (" ++
  today_str ++
  ").\n\nUSER INPUT: \"" ++
  text ++
  "\"\n\nTASK: Extract all tasks and parse dates. Follow these rules STRICTLY:\n\n1. ABSOLUTE CLEANING (CRITICAL):\n- The \"text\" field MUST NOT contain any time words, dates, or logical connectives (e.g., today, yesterday, tomorrow, next week, Monday, 2nd, from..to, or, and).\n- text MUST BE pure action.\n\n2. STATE & CATEGORY (CRITICAL):\n- IS_ARCHIVED: If the input uses past tense or markers like \"了\", \"已完成\", \"做完了\" (e.g., \"昨天部署了\"), set isArchived to true.\n- CATEGORY: \n  - Date is in the past: \"history\"\n  - Date is today: \"today\"\n  - Date is in next 2 days: \"future2\"\n  - Others: \"later\"\n\n3. DATE LOOKUP:\n" ++
  calendar_str ++
  "\n- \"Yesterday\": Match the tag \"历史\" or \"昨天\" in the table above.\n- \"A or B\": Set startDate to A, dueDate to B.\n\n4. RESPONSE FORMAT (STRICT JSON):\nReturn ONLY a JSON object with this structure:\n\x7b\n  \"items\": [\n    \x7b\n      \"text\": \"Task Content\",\n      \"startDate\": \"YYYY-MM-DD\",\n      \"dueDate\": \"YYYY-MM-DD\",\n      \"category\": \"history|today|future2|later\",\n      \"isArchived\": false\n    \x7d\n  ]\n\x7d\n"

def audioPrompt (today_iso today_str calendar_str : String) : String :=
  "Current Time: " ++
  today_str ++
  " (" ++
  today_iso ++
  "). Analyze the spoken input.\nCalendar Reference (Lookup dates/tags here):\n" ++
  calendar_str ++
  "\n\nTask Processor Rules:\n1. **text**: Task content only, MANDATORY: Remove ALL time-related words (e.g., \"today\", \"yesterday\", \"tomorrow\", \"from...to...\").\n2. **startDate** and **dueDate**: YYYY-MM-DD. Map terms like \x27yesterday\x27 or \x27next week\x27 to the tags in the calendar table above.\n3. **Archive & Category (CRITICAL)**: \n   - set isArchived to true if the input describes a completed action (e.g., using \"了\", \"已做\").\n   - if date is in the past, set category to \"history\".\n\nReturn JSON: \x7b\"items\": [\x7b\"text\": \"...\", \"startDate\": \"YYYY-MM-DD\", \"dueDate\": \"YYYY-MM-DD\", \"category\": \"history|today|future2|later\", \"isArchived\": false\x7d]\x7d"

def formatPrompt (text : String) : String :=
  "请美化并结构化以下笔记内容。\n核心规则：\n1. 保持原语言：输入是中文则输出中文，输入是英文则输出英文。绝对不要进行翻译。\n2. 结构化：使用 Markdown（粗体、列表、标题）使其清晰易读。\n3. 简洁专业：去除冗余，保持逻辑清晰。\n\n笔记内容：\n\"" ++
  text ++
  "\"\n"


/-! ### The extract-from-text operation (`parse_tasks_from_text`) -/

/-- The canonical task item produced by the text normalizer (fields keep the
Python values put into the dict). -/
structure TaskItem where
  text : PyVal
  startDate : PyVal
  dueDate : PyVal
  category : PyVal
  isArchived : PyVal
deriving Repr

/-- The per-item key normalization of `parse_tasks_from_text`
(ai_service.py lines 315-321): each field is a Python `or` chain over alias
keys with a default. -/
def normalizeTextItem (today_iso : String) (m : List (String × PyVal)) : TaskItem where
  text := pyOr (dictGet m "text") (pyOr (dictGet m "content") (.strV "未命名任务"))
  startDate := pyOr (dictGet m "startDate") (pyOr (dictGet m "start_date")
    (pyOr (dictGet m "dueDate") (pyOr (dictGet m "due_date") (.strV today_iso))))
  dueDate := pyOr (dictGet m "dueDate") (pyOr (dictGet m "due_date") (.strV today_iso))
  category := pyOr (dictGet m "category") (pyOr (dictGet m "timeframe") (.strV "today"))
  isArchived := pyOr (dictGet m "isArchived") (pyOr (dictGet m "archived")
    (pyOr (dictGet m "is_archived") (.boolV false)))

/-- The loop over `raw_items`: `item.get` on a non-dict raises
AttributeError (caught by the operation's except). -/
def normalizeItems (today_iso : String) : List PyVal → Except PyErr (List TaskItem)
  | [] => .ok []
  | .dictV m :: rest =>
    match normalizeItems today_iso rest with
    | .ok ts => .ok (normalizeTextItem today_iso m :: ts)
    | .error e => .error e
  | _ :: _ => .error .attributeError

/-- `raw_items` (line 310): `raw_result.get("items", [])` when the parsed
value is a dict (iterating a non-list value yields its elements — characters
for a str, keys for a dict — or TypeError when not iterable), the value
itself when a list, else the empty list. -/
def extractRawItems (v : PyVal) : Except PyErr (List PyVal) :=
  match v with
  | .dictV m =>
    match dictGetD m "items" (.listV []) with
    | .listV l => .ok l
    | .strV s => .ok (s.data.map (fun c => PyVal.strV (String.mk [c])))
    | .dictV m2 => .ok (m2.map (fun p => PyVal.strV p.1))
    | _ => .error .typeError
  | .listV l => .ok l
  | _ => .ok []

/-- The fallback payload of the text operation's `except` (line 327). -/
def fallbackTextItem (text today_iso : String) : TaskItem :=
  ⟨.strV text, .strV today_iso, .strV today_iso, .strV "today", .boolV false⟩

/-- The body of `parse_tasks_from_text`'s `try` after the AI call: clean,
json-parse, extract the raw item list, normalize. -/
def parse_text_body (response_text today_iso : String) : Except PyErr (List TaskItem) :=
  match json_loads (clean_json_response response_text) with
  | Option.none => .error (.valueError "json decode error")
  | Option.some v =>
    match extractRawItems v with
    | .error e => .error e
    | .ok items => normalizeItems today_iso items

/-- `parse_tasks_from_text` (lines 262-327).  The calendar context is built
before the `try`, so its exceptions propagate; everything inside the `try`
degrades to the single-item fallback payload. -/
def parse_tasks_from_text (st : Settings) (provider : Option String) (net : NetOracle)
    (text today_iso today_str : String) : Except PyErr (List TaskItem) :=
  match get_calendar_context today_iso with
  | .error e => .error e
  | .ok calendar_str =>
    let prompt := textPrompt text today_iso today_str calendar_str
    .ok (match (call_ai st provider net prompt).1 with
      | .error _ => [fallbackTextItem text today_iso]
      | .ok response_text =>
        match parse_text_body response_text today_iso with
        | .ok items => items
        | .error _ => [fallbackTextItem text today_iso])

/-! ### The extract-from-audio operation (`parse_tasks_from_audio`) -/

/-- One iteration of the audio patch loop (line 353): for a dict item,
insert `startDate` from the alias chain when the key is missing; for a str
item, `"startDate" not in item` is a substring test and the subsequent
assignment raises TypeError; any other type is unsubscriptable or not
testable and raises TypeError. -/
def patchAudioItem (today_iso : String) : PyVal → Except PyErr PyVal
  | .dictV m =>
    if containsKey m "startDate" then .ok (.dictV m)
    else .ok (.dictV (dictInsert m "startDate"
      (pyOr (dictGet m "start_date") (pyOr (dictGet m "dueDate")
        (pyOr (dictGet m "due_date") (.strV today_iso))))))
  | .strV s =>
    if containsSeq "startDate".data s.data then .ok (.strV s) else .error .typeError
  | .listV l =>
    if l.any (fun x => match x with | .strV s => s = "startDate" | _ => false)
    then .ok (.listV l) else .error .typeError
  | _ => .error .typeError

/-- The `for item in items` patch loop over the `items` value, which need
not be a list: iterating a str visits its characters, iterating a dict its
keys (mutation of those raises, leaving the container unchanged), and a
non-iterable raises TypeError. -/
def patchAudioItems (today_iso : String) (items : PyVal) : Except PyErr PyVal :=
  match items with
  | .listV l =>
    match l.mapM (patchAudioItem today_iso) with
    | .ok l2 => .ok (.listV l2)
    | .error e => .error e
  | .strV s =>
    match (s.data.map (fun c => PyVal.strV (String.mk [c]))).mapM
        (patchAudioItem today_iso) with
    | .ok _ => .ok (.strV s)
    | .error e => .error e
  | .dictV m =>
    match (m.map (fun p => PyVal.strV p.1)).mapM (patchAudioItem today_iso) with
    | .ok _ => .ok (.dictV m)
    | .error e => .error e
  | _ => .error .typeError

/-- The fallback payload of the audio operation's `except` (line 357). -/
def fallbackAudioItems (today_iso : String) : PyVal :=
  .listV [.dictV [("text", .strV "语音任务"), ("startDate", .strV today_iso),
    ("dueDate", .strV today_iso), ("category", .strV "today"),
    ("isArchived", .boolV false)]]

/-- `parse_tasks_from_audio` (lines 330-357): the function returns the
(patched) `items` value as-is — the code does not re-coerce it to a list,
so the result is modelled as a `PyVal`. -/
def parse_tasks_from_audio (st : Settings) (provider : Option String) (net : NetOracle)
    (audio_base64 mime_type today_iso today_str : String) : Except PyErr PyVal :=
  match get_calendar_context today_iso with
  | .error e => .error e
  | .ok calendar_str =>
    let prompt := audioPrompt today_iso today_str calendar_str
    .ok (match (call_ai_with_audio st provider net audio_base64 mime_type prompt).1 with
      | .error _ => fallbackAudioItems today_iso
      | .ok response_text =>
        match json_loads (clean_json_response response_text) with
        | Option.none => fallbackAudioItems today_iso
        | Option.some v =>
          let items : PyVal := match v with
            | .dictV m => dictGetD m "items" (.listV [])
            | _ => .listV []
          match patchAudioItems today_iso items with
          | .ok out => out
          | .error _ => fallbackAudioItems today_iso)

/-! ### The format-notes operation (`format_notes`) -/

/-- `format_notes` (lines 436-454): a blank (whitespace-only) input returns
the empty string before any provider resolution or network call; otherwise
the AI reply, degrading to the input text on any failure.  The Bool records
whether the gateway was invoked. -/
def format_notes (st : Settings) (provider : Option String) (net : NetOracle)
    (text : String) : String × Bool :=
  if pyStrip text = "" then ("", false)
  else
    let prompt := formatPrompt text
    match call_ai st provider net prompt with
    | (.ok reply, used) => (reply, used)
    | (.error _, used) => (text, used)

/-! ### Claim theorems about the operations -/

/-- A transport oracle whose every call returns the same raw text. -/
def constOracle (s : String) : NetOracle :=
  ⟨fun _ => .ok s, fun _ => .ok s, fun _ _ _ => .ok s⟩

/-- A transport oracle whose every call fails. -/
def failOracle : NetOracle :=
  ⟨fun _ => .error .typeError, fun _ => .error .typeError, fun _ _ _ => .error .typeError⟩

theorem call_ai_ok {st : Settings} {provider : Option String} {s : String}
    (hkey : (get_ai_config st provider).api_key ≠ "") (prompt : String) :
    (call_ai st provider (constOracle s) prompt).1 = .ok s := by
  simp only [call_ai, constOracle]
  rw [if_neg hkey]
  split_ifs <;> rfl

theorem parse_text_eq {st : Settings} {provider : Option String} {net : NetOracle}
    {text today_iso today_str cal : String}
    (hgc : get_calendar_context today_iso = .ok cal) :
    parse_tasks_from_text st provider net text today_iso today_str =
      .ok (match (call_ai st provider net
          (textPrompt text today_iso today_str cal)).1 with
        | .error _ => [fallbackTextItem text today_iso]
        | .ok response_text =>
          match parse_text_body response_text today_iso with
          | .ok items => items
          | .error _ => [fallbackTextItem text today_iso]) := by
  simp only [parse_tasks_from_text, hgc]

/-- CLAIM C3 (amended: when the cleaned text is not valid JSON the operation
yields its single-item fallback payload — the original input text with both
dates set to today — not an empty sequence).  For every raw provider output
string the operation returns normally; it never raises. -/
theorem parse_text_never_raises (st : Settings) (provider : Option String)
    (s text today_iso today_str : String)
    (hcal : (get_calendar_context today_iso).isOk = true)
    (hkey : (get_ai_config st provider).api_key ≠ "") :
    (∃ items, parse_tasks_from_text st provider (constOracle s)
        text today_iso today_str = .ok items) ∧
    (json_loads (clean_json_response s) = Option.none →
      parse_tasks_from_text st provider (constOracle s) text today_iso today_str =
        .ok [fallbackTextItem text today_iso]) := by
  cases hgc : get_calendar_context today_iso with
  | error e =>
    rw [hgc] at hcal
    exact absurd hcal (by simp [Except.isOk, Except.toBool])
  | ok cal =>
    constructor
    · exact ⟨_, parse_text_eq hgc⟩
    · intro hbad
      rw [parse_text_eq hgc, call_ai_ok hkey]
      simp only [parse_text_body, hbad]

/-- Witness for C3 at raw output "not json". -/
theorem parse_text_never_raises_witness :
    parse_tasks_from_text { OPENAI_API_KEY := "k" } (Option.some "openai")
        (constOracle "not json") "x" "2025-01-01" "Wednesday" =
      .ok [fallbackTextItem "x" "2025-01-01"] :=
  (parse_text_never_raises { OPENAI_API_KEY := "k" } (Option.some "openai")
    "not json" "x" "2025-01-01" "Wednesday" (by rfl) (by decide)).2 (by rfl)

/-- Counterexample to C3 as stated: on unparsable output the operation's
result is the single-item fallback, which is not an empty sequence. -/
theorem parse_text_malformed_cex :
    parse_tasks_from_text { OPENAI_API_KEY := "k" } (Option.some "openai")
        (constOracle "not json") "x" "2025-01-01" "Wednesday" =
      .ok [fallbackTextItem "x" "2025-01-01"] ∧
    [fallbackTextItem "x" "2025-01-01"] ≠ ([] : List TaskItem) :=
  ⟨by rfl, by simp⟩

/-- The spec's alias-coalescing rule (§4.5): the first usable (truthy) value
among the accepted alias keys, else the default. -/
def specCoalesce (m : List (String × PyVal)) : List String → PyVal → PyVal
  | [], dflt => dflt
  | k :: rest, dflt =>
    if truthy (dictGet m k) then dictGet m k else specCoalesce m rest dflt

/-- CLAIM C4 — every raw item is normalized by alias coalescing exactly as
the spec describes per field, and the concrete example
`content = "buy milk", due_date = "2025-01-02"` normalizes as claimed. -/
theorem normalize_alias_coalescing :
    (∀ (today_iso : String) (m : List (String × PyVal)),
      (normalizeTextItem today_iso m).text =
        specCoalesce m ["text", "content"] (.strV "未命名任务") ∧
      (normalizeTextItem today_iso m).dueDate =
        specCoalesce m ["dueDate", "due_date"] (.strV today_iso) ∧
      (normalizeTextItem today_iso m).startDate =
        specCoalesce m ["startDate", "start_date"]
          ((normalizeTextItem today_iso m).dueDate) ∧
      (normalizeTextItem today_iso m).isArchived =
        specCoalesce m ["isArchived", "archived", "is_archived"] (.boolV false)) ∧
    normalizeTextItem "2025-03-04"
        [("content", .strV "buy milk"), ("due_date", .strV "2025-01-02")] =
      ⟨.strV "buy milk", .strV "2025-01-02", .strV "2025-01-02",
        .strV "today", .boolV false⟩ :=
  ⟨fun _ _ => ⟨rfl, rfl, rfl, rfl⟩, rfl⟩

/-- CLAIM C5 (amended: the missing-credential ValueError is raised inside
`call_ai`/`call_ai_with_audio` before any transport use and is never
retried, but the orchestrator operations catch it and return their fallback
payloads — it is not surfaced past the operation boundary). -/
theorem config_error_before_network (st : Settings) (provider : Option String)
    (h : (get_ai_config st provider).api_key = "") :
    (∀ net prompt, call_ai st provider net prompt =
      (.error (.valueError ("未配置 " ++ (get_ai_config st provider).provider ++
        " 的 API Key")), false)) ∧
    (∀ net audio mime prompt, call_ai_with_audio st provider net audio mime prompt =
      (.error (.valueError ("未配置 " ++ (get_ai_config st provider).provider ++
        " 的 API Key")), false)) ∧
    (∀ net text today_iso today_str cal,
      get_calendar_context today_iso = .ok cal →
      parse_tasks_from_text st provider net text today_iso today_str =
        .ok [fallbackTextItem text today_iso]) := by
  refine ⟨?_, ?_, ?_⟩
  · intro net prompt
    simp only [call_ai]
    rw [if_pos h]
  · intro net audio mime prompt
    simp only [call_ai_with_audio]
    rw [if_pos h]
  · intro net text today_iso today_str cal hcal
    simp only [parse_tasks_from_text, hcal]
    have hc : (call_ai st provider net
        (textPrompt text today_iso today_str cal)).1 =
        .error (.valueError ("未配置 " ++ (get_ai_config st provider).provider ++
          " 的 API Key")) := by
      simp only [call_ai]
      rw [if_pos h]
    rw [hc]

/-- Witness for C5: all-default settings (every api_key empty), provider
"openai". -/
theorem config_error_before_network_witness :
    call_ai ({} : Settings) (Option.some "openai") failOracle "p" =
      (.error (.valueError "未配置 openai 的 API Key"), false) :=
  (config_error_before_network ({} : Settings) (Option.some "openai") (by rfl)).1
    failOracle "p"

/-- Counterexample to C5 as stated: with an empty api_key the extract-
from-text operation returns its fallback payload (`.ok`), i.e. the
configuration error is degraded, not surfaced to the operation's caller. -/
theorem config_error_degraded_cex :
    (get_ai_config ({} : Settings) (Option.some "openai")).api_key = "" ∧
    parse_tasks_from_text ({} : Settings) (Option.some "openai") (constOracle "ok")
        "task" "2025-01-01" "Wednesday" =
      .ok [fallbackTextItem "task" "2025-01-01"] :=
  ⟨rfl, by rfl⟩

theorem parse_audio_eq {st : Settings} {provider : Option String} {net : NetOracle}
    {audio mime today_iso today_str cal : String}
    (hgc : get_calendar_context today_iso = .ok cal) :
    parse_tasks_from_audio st provider net audio mime today_iso today_str =
      .ok (match (call_ai_with_audio st provider net audio mime
          (audioPrompt today_iso today_str cal)).1 with
        | .error _ => fallbackAudioItems today_iso
        | .ok response_text =>
          match json_loads (clean_json_response response_text) with
          | Option.none => fallbackAudioItems today_iso
          | Option.some v =>
            match patchAudioItems today_iso
                (match v with
                 | .dictV m => dictGetD m "items" (.listV [])
                 | _ => .listV []) with
            | .ok out => out
            | .error _ => fallbackAudioItems today_iso) := by
  simp only [parse_tasks_from_audio, hgc]

/-- CLAIM C6 (amended: the failure fallback is the one-element placeholder
list — text 语音任务, dates = today — not the empty list).  The operation
never raises past its boundary: each failure mode (missing credential,
transport error, unparsable model output) is caught and degraded to that
fallback payload. -/
theorem parse_audio_failure_fallback (st : Settings) (provider : Option String)
    (net : NetOracle) (audio mime today_iso today_str : String)
    (hcal : (get_calendar_context today_iso).isOk = true) :
    (∃ v, parse_tasks_from_audio st provider net audio mime today_iso today_str =
      .ok v) ∧
    ((get_ai_config st provider).api_key = "" →
      parse_tasks_from_audio st provider net audio mime today_iso today_str =
        .ok (fallbackAudioItems today_iso)) ∧
    (∀ e, (get_ai_config st provider).api_key ≠ "" →
      (get_ai_config st provider).provider = "gemini" →
      (∀ a m p, net.geminiAudio a m p = .error e) →
      parse_tasks_from_audio st provider net audio mime today_iso today_str =
        .ok (fallbackAudioItems today_iso)) ∧
    (∀ s, (get_ai_config st provider).api_key ≠ "" →
      (get_ai_config st provider).provider = "gemini" →
      (∀ a m p, net.geminiAudio a m p = .ok s) →
      json_loads (clean_json_response s) = Option.none →
      parse_tasks_from_audio st provider net audio mime today_iso today_str =
        .ok (fallbackAudioItems today_iso)) := by
  cases hgc : get_calendar_context today_iso with
  | error e =>
    rw [hgc] at hcal
    exact absurd hcal (by simp [Except.isOk, Except.toBool])
  | ok cal =>
    refine ⟨⟨_, parse_audio_eq hgc⟩, ?_, ?_, ?_⟩
    · intro hkey
      rw [parse_audio_eq hgc]
      have hc : (call_ai_with_audio st provider net audio mime
          (audioPrompt today_iso today_str cal)).1 =
          .error (.valueError ("未配置 " ++ (get_ai_config st provider).provider ++
            " 的 API Key")) := by
        simp only [call_ai_with_audio]
        rw [if_pos hkey]
      rw [hc]
    · intro e hkey hgem hnet
      rw [parse_audio_eq hgc]
      have hc : (call_ai_with_audio st provider net audio mime
          (audioPrompt today_iso today_str cal)).1 = .error e := by
        simp only [call_ai_with_audio]
        rw [if_neg hkey, if_pos hgem]
        exact hnet _ _ _
      rw [hc]
    · intro s hkey hgem hnet hbad
      rw [parse_audio_eq hgc]
      have hc : (call_ai_with_audio st provider net audio mime
          (audioPrompt today_iso today_str cal)).1 = .ok s := by
        simp only [call_ai_with_audio]
        rw [if_neg hkey, if_pos hgem]
        exact hnet _ _ _
      rw [hc]
      simp only [hbad]

/-- Witness for C6: all-default settings (empty keys), so the configuration
failure path yields the single placeholder item. -/
theorem parse_audio_failure_fallback_witness :
    parse_tasks_from_audio ({} : Settings) Option.none failOracle
        "audio" "audio/webm" "2025-01-01" "Wednesday" =
      .ok (fallbackAudioItems "2025-01-01") :=
  (parse_audio_failure_fallback ({} : Settings) Option.none failOracle
    "audio" "audio/webm" "2025-01-01" "Wednesday" (by rfl)).2.1 (by rfl)

/-- Counterexample to C6 as stated: the failure fallback is a one-element
list, not the empty list. -/
theorem parse_audio_failure_fallback_cex :
    parse_tasks_from_audio ({} : Settings) Option.none failOracle
        "audio" "audio/webm" "2025-01-01" "Wednesday" =
      .ok (fallbackAudioItems "2025-01-01") ∧
    fallbackAudioItems "2025-01-01" ≠ .listV [] :=
  ⟨by rfl, by simp [fallbackAudioItems]⟩

/-- CLAIM C8 — for any resolved provider outside the Gemini family with a
non-empty api_key, the audio client returns the literal well-formed empty
result without touching the network, and the extract-from-audio operation
consequently returns the empty item list without raising. -/
theorem audio_unsupported_empty (st : Settings) (provider : Option String)
    (net : NetOracle) (audio mime prompt : String)
    (hng : (get_ai_config st provider).provider ≠ "gemini")
    (hkey : (get_ai_config st provider).api_key ≠ "") :
    call_openai_compatible_with_audio audio mime prompt (get_ai_config st provider) =
      "\x7b\"items\": []\x7d" ∧
    call_ai_with_audio st provider net audio mime prompt =
      (.ok "\x7b\"items\": []\x7d", false) ∧
    (∀ today_iso today_str, (get_calendar_context today_iso).isOk = true →
      parse_tasks_from_audio st provider net audio mime today_iso today_str =
        .ok (.listV [])) := by
  have hcall : ∀ p, call_ai_with_audio st provider net audio mime p =
      (.ok "\x7b\"items\": []\x7d", false) := by
    intro p
    simp only [call_ai_with_audio]
    rw [if_neg hkey, if_neg hng]
    rfl
  refine ⟨rfl, hcall prompt, ?_⟩
  intro today_iso today_str hcal
  cases hgc : get_calendar_context today_iso with
  | error e =>
    rw [hgc] at hcal
    exact absurd hcal (by simp [Except.isOk, Except.toBool])
  | ok cal =>
    rw [parse_audio_eq hgc, hcall _]
    rfl

/-- Witness for C8: OpenAI provider with a configured key. -/
theorem audio_unsupported_empty_witness :
    call_ai_with_audio { OPENAI_API_KEY := "k" } (Option.some "openai") failOracle
        "audio" "audio/webm" "p" = (.ok "\x7b\"items\": []\x7d", false) ∧
    parse_tasks_from_audio { OPENAI_API_KEY := "k" } (Option.some "openai") failOracle
        "audio" "audio/webm" "2025-01-01" "Wednesday" = .ok (.listV []) :=
  ⟨(audio_unsupported_empty { OPENAI_API_KEY := "k" } (Option.some "openai") failOracle
      "audio" "audio/webm" "p" (by decide) (by decide)).2.1,
   (audio_unsupported_empty { OPENAI_API_KEY := "k" } (Option.some "openai") failOracle
      "audio" "audio/webm" "p" (by decide) (by decide)).2.2 "2025-01-01" "Wednesday"
      (by rfl)⟩

/-- CLAIM C9 — provider resolution is total and case-insensitive: an absent
identifier resolves to the process-wide default provider's configuration,
lookup depends only on the lowercased identifier, an unknown identifier
falls back to the designated default (Gemini) configuration rather than
failing, and every result is one of the four known provider
configurations. -/
theorem provider_resolution_total (st : Settings) :
    get_ai_config st Option.none =
      get_ai_config st (Option.some st.AI_DEFAULT_PROVIDER) ∧
    (∀ s t, pyLower s = pyLower t →
      get_ai_config st (Option.some s) = get_ai_config st (Option.some t)) ∧
    (∀ s, s ≠ "" →
      pyLower s ∉ (["gemini", "openai", "siliconflow", "deepseek"] : List String) →
      get_ai_config st (Option.some s) =
        ⟨"gemini", st.GEMINI_API_KEY, st.GEMINI_MODEL, st.GEMINI_BASE_URL⟩) ∧
    (∀ p, (get_ai_config st p).provider ∈
      (["gemini", "openai", "siliconflow", "deepseek"] : List String)) := by
  refine ⟨?_, ?_, ?_, ?_⟩
  · simp only [get_ai_config, ite_self]
  · intro s t h
    have hlen : s.data.length = t.data.length := by
      have := congrArg (fun u => u.data.length) h
      simpa [pyLower] using this
    have hnil : ∀ u : String, u.data.length = 0 → u = "" := by
      intro u hu
      cases u with
      | mk d =>
        cases d with
        | nil => rfl
        | cons c cs => simp at hu
    by_cases hs : s = ""
    · have ht : t = "" := by
        apply hnil
        rw [← hlen, hs]
        rfl
      rw [hs, ht]
    · have ht : t ≠ "" := by
        intro ht0
        exact hs (hnil s (by rw [hlen, ht0]; rfl))
      have hred1 : (if s = "" then st.AI_DEFAULT_PROVIDER else s) = s := if_neg hs
      have hred2 : (if t = "" then st.AI_DEFAULT_PROVIDER else t) = t := if_neg ht
      simp only [get_ai_config, hred1, hred2, h]
  · intro s hs hmem
    simp only [List.mem_cons, List.mem_singleton] at hmem
    push_neg at hmem
    obtain ⟨h1, h2, h3, h4⟩ := hmem
    have h4b : pyLower s ≠ "deepseek" := h4.1
    have hred : (if s = "" then st.AI_DEFAULT_PROVIDER else s) = s := if_neg hs
    simp only [get_ai_config, hred, h1, h2, h3, h4b, if_false]
  · intro p
    simp only [get_ai_config]
    split_ifs <;> simp

/-- Witness for C9: mixed-case and unknown identifiers on default
settings. -/
theorem provider_resolution_total_witness :
    get_ai_config ({} : Settings) (Option.some "OpenAI") =
      get_ai_config ({} : Settings) (Option.some "openai") ∧
    get_ai_config ({} : Settings) (Option.some "unknown-vendor") =
      ⟨"gemini", "", "gemini-2.0-flash", ""⟩ :=
  ⟨(provider_resolution_total ({} : Settings)).2.1 "OpenAI" "openai" rfl,
   ((provider_resolution_total ({} : Settings)).2.2.1 "unknown-vendor"
     (by decide) (by decide)).trans rfl⟩

/-- CLAIM C10 — a blank (empty or whitespace-only) input to format-notes
returns the empty string immediately: no provider resolution, no network
call (the gateway-use flag is false and the result is independent of both
the settings and the transport oracle), and the result is "" rather than
the original whitespace text. -/
theorem format_notes_blank (st : Settings) (provider : Option String)
    (net : NetOracle) (text : String) (h : pyStrip text = "") :
    format_notes st provider net text = ("", false) := by
  simp only [format_notes]
  rw [if_pos h]

/-- Witness for C10 at the whitespace-only input "   ". -/
theorem format_notes_blank_witness :
    format_notes ({} : Settings) Option.none failOracle "   " = ("", false) ∧
    ("   " : String) ≠ "" :=
  ⟨format_notes_blank ({} : Settings) Option.none failOracle "   " (by rfl),
   by decide⟩

end EasyNote
